import Mathlib

/-!
Verification of the real-time rock-paper-scissors match subsystem
(`app/socket_handlers.py`, `app/game.py`, `app/models.py`).

The Python code is shallowly embedded: ORM rows become Lean structures,
the database becomes explicit lists inside a `ServerState`, socket handlers
become state-transforming functions, and an uncaught Python exception is
modelled by the `HandlerResult.raised` constructor carrying the state as it
was persisted at the moment the exception escaped (SQLAlchemy writes take
effect at `db.session.commit()`; writes never committed are dropped).
Python float arithmetic in the ELO computation is idealised as exact real
arithmetic; Python's built-in `round` (round-half-to-even) is `pyRound`.
-/

namespace RPS

/-- `User` row from `app/models.py` (authentication fields omitted: out of
scope). Ratings and counters are machine integers, modelled as `ℤ`. -/
structure User where
  id : ℤ
  username : String
  elo_rating : ℤ
  games_played : ℤ
  games_won : ℤ
  games_lost : ℤ
  games_tied : ℤ
  deriving Repr, DecidableEq

/-- `Game` row from `app/models.py`. `player2_id`, the choices, `winner_id`
and `completed_at` are nullable columns, hence `Option`. -/
structure Game where
  id : ℤ
  player1_id : ℤ
  player2_id : Option ℤ
  player1_choice : Option String
  player2_choice : Option String
  winner_id : Option ℤ
  status : String
  is_quickplay : Bool
  player1_elo_change : ℤ
  player2_elo_change : ℤ
  created_at : ℕ
  completed_at : Option ℕ
  deriving Repr, DecidableEq

/-- The server-side mutable state: the `user` and `game` tables, the
`game_timers` registry of armed `(game_id, player_id)` deadlines, and the
auto-increment counter for game primary keys.  `elo_log` is ghost
instrumentation only: it records the id of the game passed to each
invocation of `update_elo_ratings`, so that "the rating-update step is
applied exactly once per match" becomes observable in the model. -/
structure ServerState where
  users : List User
  games : List Game
  timers : List (ℤ × ℤ)
  next_game_id : ℤ
  elo_log : List ℤ
  deriving Repr, DecidableEq

/-- `User.query.get(uid)`. -/
def getUser (s : ServerState) (uid : ℤ) : Option User :=
  s.users.find? (fun u => u.id == uid)

/-- `User.query.get(x)` where `x` is a nullable id; `get(None)` / attribute
access on the resulting `None` raises, which callers model as an error. -/
def getUserOpt (s : ServerState) (oid : Option ℤ) : Option User :=
  oid.bind (getUser s)

/-- `Game.query.get(gid)`. -/
def getGame (s : ServerState) (gid : ℤ) : Option Game :=
  s.games.find? (fun g => g.id == gid)

/-- Committing a mutated `User` row back to the table. -/
def setUser (s : ServerState) (u : User) : ServerState :=
  { s with users := s.users.map (fun x => if x.id == u.id then u else x) }

/-- Committing a mutated `Game` row back to the table. -/
def setGame (s : ServerState) (g : Game) : ServerState :=
  { s with games := s.games.map (fun x => if x.id == g.id then g else x) }

/-- Python truthiness of a nullable string column: `None` and `''` are
falsy.  `handle_choice` and `handle_timer_expire` test choices this way. -/
def truthy : Option String → Bool
  | none => false
  | some s => s ≠ ""

/-- `start_turn_timer`: arm `(game_id, player_id)`, replacing any existing
handle for the pair. -/
def start_turn_timer (s : ServerState) (gid pid : ℤ) : ServerState :=
  { s with timers := s.timers.filter (fun t => t ≠ (gid, pid)) ++ [(gid, pid)] }

/-- `cancel_player_timer`: cancel the pair's timer if present, else no-op. -/
def cancel_player_timer (s : ServerState) (gid pid : ℤ) : ServerState :=
  { s with timers := s.timers.filter (fun t => t ≠ (gid, pid)) }

/-- `cancel_game_timers`: cancel every timer of the match. -/
def cancel_game_timers (s : ServerState) (gid : ℤ) : ServerState :=
  { s with timers := s.timers.filter (fun t => t.1 ≠ gid) }

/-- Result of running one socket handler: either a normal return with the
resulting persisted state, or an uncaught exception (`raised`) together
with the state that had been committed when the exception escaped. -/
inductive HandlerResult where
  | ok (s : ServerState)
  | raised (s : ServerState) (msg : String)
  deriving Repr, DecidableEq

/-- The `winning_combinations` dict literal of `determine_winner`; the
values are the ids the source reads off the game row (`game.player1_id`,
nullable `game.player2_id`). -/
def winning_combinations (p1 : ℤ) (p2 : Option ℤ) :
    List ((String × String) × Option ℤ) :=
  [ (("rock", "scissors"), some p1),
    (("paper", "rock"), some p1),
    (("scissors", "paper"), some p1),
    (("scissors", "rock"), p2),
    (("rock", "paper"), p2),
    (("paper", "scissors"), p2) ]

/-- `determine_winner`: equal choices tie; otherwise a dict `.get`, whose
miss (unrecognised pair) yields `None`. -/
def determine_winner (game : Game) : Option ℤ :=
  if game.player1_choice = game.player2_choice then
    none
  else
    match game.player1_choice, game.player2_choice with
    | some a, some b =>
        (List.lookup (a, b) (winning_combinations game.player1_id game.player2_id)).join
    | _, _ => none

/-- `handle_join_game`: silently returns on a missing game; if the game is
active with both players present it arms a turn timer for each player who
has not yet chosen.  Room membership and broadcasts are outside the model. -/
def handle_join_game (s : ServerState) (_uid gid : ℤ) : HandlerResult :=
  match getGame s gid with
  | none => .ok s
  | some game =>
      if game.status == "active" && game.player2_id.isSome then
        let s1 := if truthy game.player1_choice then s
                  else start_turn_timer s gid game.player1_id
        let s2 := if truthy game.player2_choice then s1
                  else match game.player2_id with
                       | some p2 => start_turn_timer s1 gid p2
                       | none => s1
        .ok s2
      else
        .ok s

/-- `handle_play_again`: returns silently on a missing game or a requester
who is neither player; otherwise creates and commits a new active game with
the same players, then looks up both players' usernames for the broadcast —
which raises when `player2_id` is `NULL` (the commit has already happened). -/
def handle_play_again (s : ServerState) (uid gid : ℤ) (now : ℕ) : HandlerResult :=
  match getGame s gid with
  | none => .ok s
  | some old_game =>
      if uid ≠ old_game.player1_id ∧ some uid ≠ old_game.player2_id then
        .ok s
      else
        let new_game : Game :=
          { id := s.next_game_id
            player1_id := old_game.player1_id
            player2_id := old_game.player2_id
            player1_choice := none
            player2_choice := none
            winner_id := none
            status := "active"
            is_quickplay := old_game.is_quickplay
            player1_elo_change := 0
            player2_elo_change := 0
            created_at := now
            completed_at := none }
        let s1 : ServerState :=
          { s with games := s.games ++ [new_game],
                   next_game_id := s.next_game_id + 1 }
        match getUser s1 old_game.player1_id, getUserOpt s1 old_game.player2_id with
        | some _, some _ => .ok s1
        | _, _ => .raised s1 "AttributeError"

/-- The scan of `join_random_game` in `app/game.py`: waiting quickplay
games with no second player, excluding those the requester created. -/
def eligible (uid : ℤ) (g : Game) : Bool :=
  g.status == "waiting" && g.is_quickplay && g.player2_id == none
    && !(g.player1_id == uid)

/-- `join_random_game` (`app/game.py`): join the first eligible waiting
quickplay game (`Query.first()` modelled as the first row in insertion /
primary-key order, SQLite's default scan order), else create a fresh
waiting quickplay game.  Returns the new state, the game id, and the JSON
`status` string. -/
def join_random_game (s : ServerState) (uid : ℤ) (now : ℕ) :
    ServerState × ℤ × String :=
  match s.games.find? (eligible uid) with
  | some available_game =>
      let g' := { available_game with player2_id := some uid, status := "active" }
      (setGame s g', available_game.id, "matched")
  | none =>
      let game : Game :=
        { id := s.next_game_id
          player1_id := uid
          player2_id := none
          player1_choice := none
          player2_choice := none
          winner_id := none
          status := "waiting"
          is_quickplay := true
          player1_elo_change := 0
          player2_elo_change := 0
          created_at := now
          completed_at := none }
      ({ s with games := s.games ++ [game], next_game_id := s.next_game_id + 1 },
       game.id, "waiting")

/-- Python's built-in `round`: round to the nearest integer, ties to the
even neighbour (banker's rounding).  Used by `update_elo_ratings`. -/
noncomputable def pyRound (x : ℝ) : ℤ :=
  if Int.fract x < 1/2 then ⌊x⌋
  else if Int.fract x = 1/2 then (if Even ⌊x⌋ then ⌊x⌋ else ⌊x⌋ + 1)
  else ⌈x⌉

/-- Modelled from the spec: "rounded to nearest integer using
round-half-away-from-zero".  Stated only to compare against the source's
`pyRound` in the refinement claim about rating deltas. -/
noncomputable def roundHalfAwayFromZero (x : ℝ) : ℤ :=
  if 0 ≤ x then ⌊x + 1/2⌋ else ⌈x - 1/2⌉

/-- The K-factor constant of `update_elo_ratings`. -/
def K : ℤ := 10

/-- The expected-score expression of `update_elo_ratings`:
`expected_score ra rb = 1 / (1 + 10 ** ((rb - ra) / 400))`, the expected
score of the player rated `ra` against the player rated `rb`.  Python
float arithmetic is idealised as exact real arithmetic. -/
noncomputable def expected_score (ra rb : ℤ) : ℝ :=
  1 / (1 + (10 : ℝ) ^ ((((rb - ra : ℤ)) : ℝ) / 400))

/-- `score_p1` of `update_elo_ratings`: 1 = win, 0.5 = tie, 0 = loss,
keyed on `game.winner_id` exactly as the source's if/elif/else chain. -/
noncomputable def score_p1 (game : Game) : ℝ :=
  if game.winner_id = none then 1/2
  else if game.winner_id = some game.player1_id then 1
  else 0

/-- `score_p2` of `update_elo_ratings`. -/
noncomputable def score_p2 (game : Game) : ℝ :=
  if game.winner_id = none then 1/2
  else if game.winner_id = some game.player1_id then 0
  else 1

/-- The win/loss/tie counter updates of `update_elo_ratings` for player 1. -/
def bump_counters_p1 (game : Game) (player1 : User) : User :=
  if game.winner_id = none then
    { player1 with games_tied := player1.games_tied + 1 }
  else if game.winner_id = some game.player1_id then
    { player1 with games_won := player1.games_won + 1 }
  else
    { player1 with games_lost := player1.games_lost + 1 }

/-- The win/loss/tie counter updates of `update_elo_ratings` for player 2. -/
def bump_counters_p2 (game : Game) (player2 : User) : User :=
  if game.winner_id = none then
    { player2 with games_tied := player2.games_tied + 1 }
  else if game.winner_id = some game.player1_id then
    { player2 with games_lost := player2.games_lost + 1 }
  else
    { player2 with games_won := player2.games_won + 1 }

/-- `update_elo_ratings`: computes both deltas, applies them, bumps the
counters and `games_played`, stores the deltas on the game row.  Looking
up a missing player (in particular `player2_id = NULL`) raises, modelled
as `.error`.  The ghost `elo_log` records the invocation. -/
noncomputable def update_elo_ratings (s : ServerState) (game : Game) :
    Except String (ServerState × Game) :=
  match getUser s game.player1_id, getUserOpt s game.player2_id with
  | some player1, some player2 =>
      let expected_p1 := expected_score player1.elo_rating player2.elo_rating
      let expected_p2 := expected_score player2.elo_rating player1.elo_rating
      let elo_change_p1 := pyRound ((K : ℝ) * (score_p1 game - expected_p1))
      let elo_change_p2 := pyRound ((K : ℝ) * (score_p2 game - expected_p2))
      let p1' := bump_counters_p1 game player1
      let p2' := bump_counters_p2 game player2
      let p1'' := { p1' with
                    elo_rating := p1'.elo_rating + elo_change_p1,
                    games_played := p1'.games_played + 1 }
      let p2'' := { p2' with
                    elo_rating := p2'.elo_rating + elo_change_p2,
                    games_played := p2'.games_played + 1 }
      let game' := { game with
                     player1_elo_change := elo_change_p1,
                     player2_elo_change := elo_change_p2 }
      .ok ({ setUser (setUser s p1'') p2'' with elo_log := s.elo_log ++ [game.id] },
           game')
  | _, _ => .error "AttributeError"

/-- `handle_choice` (`make_choice` event): records the client-supplied
choice string for whichever player the sender is — with no game-status
check, no already-moved check and no membership in the choice enumeration
checked — and resolves the game as soon as both choices are truthy.
A missing game id raises (`game.player1_id` on `None`) before anything is
written. -/
noncomputable def handle_choice (s0 : ServerState) (uid gid : ℤ)
    (choice : String) (now : ℕ) : HandlerResult :=
  match getGame s0 gid with
  | none => .raised s0 "AttributeError"
  | some game =>
      let step : Game × ServerState :=
        if uid = game.player1_id then
          ({ game with player1_choice := some choice },
           cancel_player_timer s0 gid game.player1_id)
        else if some uid = game.player2_id then
          ({ game with player2_choice := some choice },
           cancel_player_timer s0 gid uid)
        else (game, s0)
      let g1 := step.1
      let s1 := step.2
      if truthy g1.player1_choice && truthy g1.player2_choice then
        let g2 := { g1 with winner_id := determine_winner g1,
                            status := "completed",
                            completed_at := some now }
        match update_elo_ratings s1 g2 with
        | .error e => .raised s1 e
        | .ok (s2, g3) => .ok (cancel_game_timers (setGame s2 g3) gid)
      else
        .ok (setGame s1 g1)

/-- `handle_timer_expire`: re-checks status and the player's move, then
forfeits the expired player with the `'timeout'` sentinel, hands the
opponent a default `'rock'` if they had not chosen, declares the opponent
the winner directly (not via `determine_winner`), and resolves. -/
noncomputable def handle_timer_expire (s0 : ServerState) (gid pid : ℤ)
    (now : ℕ) : HandlerResult :=
  match getGame s0 gid with
  | none => .ok s0
  | some game =>
      if game.status ≠ "active" then .ok s0
      else if pid = game.player1_id ∧ truthy game.player1_choice then .ok s0
      else if some pid = game.player2_id ∧ truthy game.player2_choice then .ok s0
      else
        let step : Game × Option ℤ :=
          if pid = game.player1_id then
            let ga := { game with player1_choice := some "timeout" }
            let gb := if truthy ga.player2_choice then ga
                      else { ga with player2_choice := some "rock" }
            (gb, game.player2_id)
          else
            let ga := { game with player2_choice := some "timeout" }
            let gb := if truthy ga.player1_choice then ga
                      else { ga with player1_choice := some "rock" }
            (gb, some game.player1_id)
        let g1 := { step.1 with winner_id := step.2,
                                status := "completed",
                                completed_at := some now }
        match update_elo_ratings s0 g1 with
        | .error e => .raised s0 e
        | .ok (s1, g2) => .ok (cancel_game_timers (setGame s1 g2) gid)

/-! Basic facts about the two rounding modes and the expected score. -/

theorem fract_def' (x : ℝ) : Int.fract x = x - ⌊x⌋ := rfl

theorem pyRound_intCast (n : ℤ) : pyRound (n : ℝ) = n := by
  simp [pyRound, Int.fract_intCast]

theorem pyRound_eq_roundHalfAwayFromZero (x : ℝ) (h : Int.fract x ≠ 1/2) :
    pyRound x = roundHalfAwayFromZero x := by
  have hfl := Int.floor_le x
  have hlt := Int.lt_floor_add_one x
  have hf : Int.fract x = x - ⌊x⌋ := rfl
  rcases lt_or_gt_of_ne h with hc | hc
  · have hpy : pyRound x = ⌊x⌋ := by rw [pyRound, if_pos hc]
    rw [hpy, roundHalfAwayFromZero]
    split
    · refine (Int.floor_eq_iff.mpr ⟨?_, ?_⟩).symm
      · exact le_trans hfl (by linarith)
      · rw [hf] at hc; linarith
    · refine (Int.ceil_eq_iff.mpr ⟨?_, ?_⟩).symm
      · linarith
      · rw [hf] at hc; linarith
  · have h0 : ¬ Int.fract x < 1/2 := by linarith
    have hpy : pyRound x = ⌈x⌉ := by rw [pyRound, if_neg h0, if_neg h]
    have hceil : ⌈x⌉ = ⌊x⌋ + 1 := by
      refine Int.ceil_eq_iff.mpr ⟨?_, ?_⟩
      · push_cast; rw [hf] at hc; linarith
      · push_cast; linarith
    rw [hpy, hceil, roundHalfAwayFromZero]
    split
    · refine (Int.floor_eq_iff.mpr ⟨?_, ?_⟩).symm
      · push_cast; rw [hf] at hc; linarith
      · push_cast; linarith
    · refine (Int.ceil_eq_iff.mpr ⟨?_, ?_⟩).symm
      · push_cast; rw [hf] at hc; linarith
      · push_cast; linarith

theorem pyRound_bounds (x : ℝ) : ⌊x⌋ ≤ pyRound x ∧ pyRound x ≤ ⌊x⌋ + 1 := by
  unfold pyRound
  split_ifs with h1 h2 h3
  · omega
  · omega
  · omega
  · exact ⟨Int.floor_le_ceil x, Int.ceil_le_floor_add_one x⟩

theorem expected_score_pos (ra rb : ℤ) : 0 < expected_score ra rb := by
  unfold expected_score
  positivity

theorem expected_score_lt_one (ra rb : ℤ) : expected_score ra rb < 1 := by
  unfold expected_score
  rw [div_lt_one (by positivity)]
  have : (0:ℝ) < (10 : ℝ) ^ ((((rb - ra : ℤ)) : ℝ) / 400) :=
    Real.rpow_pos_of_pos (by norm_num) _
  linarith

theorem expected_score_self (r : ℤ) : expected_score r r = 1/2 := by
  unfold expected_score
  norm_num

/-! Exact evaluation of the rating deltas at equal ratings, used to run
concrete match scenarios through the resolution handlers. -/

theorem pyRound_tie_even : pyRound ((K:ℝ) * (1/2 - 1/2)) = 0 := by
  rw [show (K:ℝ) * (1/2 - 1/2) = ((0:ℤ):ℝ) by norm_num [K], pyRound_intCast]

theorem pyRound_win_even : pyRound ((K:ℝ) * (1 - 1/2)) = 5 := by
  rw [show (K:ℝ) * (1 - 1/2) = ((5:ℤ):ℝ) by norm_num [K], pyRound_intCast]

theorem pyRound_loss_even : pyRound ((K:ℝ) * (0 - 1/2)) = -5 := by
  rw [show (K:ℝ) * (0 - 1/2) = ((-5:ℤ):ℝ) by norm_num [K], pyRound_intCast]

/-! The heart of the rounding claim: on every value the rating engine can
feed to `round`, the value is never exactly halfway between two integers,
so round-half-to-even (Python) and round-half-away-from-zero (spec) agree.
The possible actual scores are 0, 1/2 and 1; a halfway value would force
`20 * expected` to be an odd integer `j`, hence
`10 ^ ((rb - ra) / 400) = (20 - j) / j` rational; taking 400-th powers and
2-adic valuations forces the exponent to be an integer `k`, and
`j * (1 + 10 ^ k) = 20` then fails on parity. -/

theorem padicValRat_ten : padicValRat 2 10 = 1 := by
  have h10 : (10:ℚ) = ((10:ℤ):ℚ) := by norm_num
  rw [h10, padicValRat.of_int]
  have h1 : padicValInt 2 10 = padicValNat 2 10 := by
    simp [padicValInt]
  rw [h1]
  have h : (10:ℕ) = 2 * 5 := by norm_num
  rw [h, padicValNat.mul (by norm_num) (by norm_num)]
  rw [padicValNat.self (by norm_num)]
  rw [padicValNat.eq_zero_of_not_dvd (by decide)]
  norm_num

theorem padicValRat_ten_zpow (m : ℤ) : padicValRat 2 ((10:ℚ) ^ m) = m := by
  obtain ⟨n, rfl | rfl⟩ := m.eq_nat_or_neg
  · rw [zpow_natCast, padicValRat.pow (by norm_num), padicValRat_ten, mul_one]
  · rw [zpow_neg, zpow_natCast, padicValRat.inv,
      padicValRat.pow (by norm_num), padicValRat_ten, mul_one]

theorem rpow_eq_rat_imp (m : ℤ) (q : ℚ) (hq : 0 < q)
    (h : (10:ℝ) ^ ((m:ℝ)/400) = (q:ℝ)) : ∃ k : ℤ, m = 400 * k ∧ q = (10:ℚ) ^ k := by
  have h400 : (q:ℝ) ^ (400:ℕ) = (10:ℝ) ^ (m:ℤ) := by
    rw [← h, ← Real.rpow_natCast ((10:ℝ) ^ ((m:ℝ)/400)) 400,
      ← Real.rpow_mul (by norm_num : (0:ℝ) ≤ 10)]
    rw [show (m:ℝ)/400 * ((400:ℕ):ℝ) = ((m:ℤ):ℝ) by push_cast; field_simp]
    exact Real.rpow_intCast 10 m
  have hQ : q ^ (400:ℕ) = (10:ℚ) ^ m := by
    have h' := h400
    rw [show ((10:ℝ) ^ (m:ℤ)) = (((10:ℚ) ^ m : ℚ) : ℝ) by push_cast; ring] at h'
    exact_mod_cast h'
  have hval : (400:ℤ) * padicValRat 2 q = m := by
    have hv := congrArg (padicValRat 2) hQ
    rw [padicValRat.pow hq.ne', padicValRat_ten_zpow] at hv
    exact_mod_cast hv
  refine ⟨padicValRat 2 q, hval.symm, ?_⟩
  have hpow : q ^ (400:ℕ) = ((10:ℚ) ^ padicValRat 2 q) ^ (400:ℕ) := by
    rw [hQ, ← hval]
    rw [← zpow_natCast ((10:ℚ) ^ padicValRat 2 q) 400, ← zpow_mul]
    ring_nf
  have h10pos : (0:ℚ) < (10:ℚ) ^ padicValRat 2 q := zpow_pos (by norm_num) _
  exact (pow_left_inj₀ hq.le h10pos.le (by norm_num)).mp hpow

theorem fract_ne_half_aux (m : ℤ) (sc : ℝ) (hs : sc = 0 ∨ sc = 1/2 ∨ sc = 1) :
    Int.fract ((10:ℝ) * (sc - 1 / (1 + (10:ℝ) ^ ((m : ℝ) / 400)))) ≠ 1/2 := by
  set y : ℝ := (10:ℝ) ^ ((m : ℝ) / 400) with hy_def
  have hy : 0 < y := Real.rpow_pos_of_pos (by norm_num) _
  set e : ℝ := 1 / (1 + y) with he_def
  have he0 : 0 < e := by positivity
  have he1 : e < 1 := by
    rw [he_def, div_lt_one (by positivity)]
    linarith
  intro hfr
  set v : ℝ := (10:ℝ) * (sc - e) with hv_def
  have hfr' : v - ⌊v⌋ = 1/2 := by
    have h' : Int.fract v = v - ⌊v⌋ := rfl
    rw [← h']; exact hfr
  obtain ⟨u, hu⟩ : ∃ u : ℤ, 20 * sc = 2 * (u:ℝ) := by
    rcases hs with h | h | h
    · exact ⟨0, by rw [h]; norm_num⟩
    · exact ⟨5, by rw [h]; norm_num⟩
    · exact ⟨10, by rw [h]; norm_num⟩
  set j : ℤ := 2 * u - 2 * ⌊v⌋ - 1 with hj_def
  have hje : (j:ℝ) = 20 * e := by
    push_cast [hj_def]
    have hv2 : 20 * e = 20 * sc - 2 * v := by rw [hv_def]; ring
    linarith
  have hj_pos : 0 < j := by
    have h' : (0:ℝ) < (j:ℝ) := by rw [hje]; positivity
    exact_mod_cast h'
  have hj_lt : j < 20 := by
    have h' : (j:ℝ) < 20 := by rw [hje]; linarith
    exact_mod_cast h'
  have hjodd : Odd j := ⟨u - ⌊v⌋ - 1, by rw [hj_def]; ring⟩
  set q : ℚ := ((20 - j : ℤ) : ℚ) / ((j : ℤ) : ℚ) with hq_def
  have hq_pos : 0 < q := by
    apply div_pos
    · exact_mod_cast (by omega : (0:ℤ) < 20 - j)
    · exact_mod_cast hj_pos
  have h1y : (j:ℝ) * (1 + y) = 20 := by
    rw [hje, he_def]
    field_simp
  have hrq : (10:ℝ) ^ ((m : ℝ) / 400) = (q:ℝ) := by
    rw [← hy_def, hq_def]
    push_cast
    have hjne : (j:ℝ) ≠ 0 := by exact_mod_cast hj_pos.ne'
    field_simp
    linarith
  obtain ⟨k, hk, hq10⟩ := rpow_eq_rat_imp m q hq_pos hrq
  have hmain : (j:ℚ) * (1 + (10:ℚ) ^ k) = 20 := by
    have hjne : ((j:ℤ):ℚ) ≠ 0 := by exact_mod_cast hj_pos.ne'
    rw [← hq10, hq_def]
    field_simp
  rcases le_or_lt 0 k with hk0 | hk0
  · obtain ⟨n, rfl⟩ : ∃ n : ℕ, k = (n:ℤ) := ⟨k.toNat, (Int.toNat_of_nonneg hk0).symm⟩
    have hZ : j * (1 + 10 ^ n) = 20 := by
      have h' : (j:ℚ) * (1 + (10:ℚ) ^ (n:ℕ)) = 20 := by
        rw [← hmain, zpow_natCast]
      exact_mod_cast h'
    rcases Nat.eq_zero_or_pos n with hn | hn
    · subst hn
      simp at hZ
      have := Int.odd_iff.mp hjodd
      omega
    · have hev : (2:ℤ) ∣ 10 ^ n := dvd_pow (by norm_num) (by omega)
      have hodd2 : Odd (1 + 10 ^ n : ℤ) := by
        obtain ⟨t, ht⟩ := hev
        exact ⟨t, by omega⟩
      have hodd20 : Odd (20:ℤ) := by
        rw [← hZ]
        exact hjodd.mul hodd2
      have := Int.odd_iff.mp hodd20
      omega
  · set n : ℕ := (-k).toNat with hn_def
    have hn1 : 1 ≤ n := by omega
    have hkn : k = -(n:ℤ) := by omega
    have hq_inv : (10:ℚ) ^ k = ((10:ℚ) ^ (n:ℕ))⁻¹ := by
      rw [hkn, zpow_neg, zpow_natCast]
    have hten : ((10:ℚ) ^ (n:ℕ)) ≠ 0 := by positivity
    have hQ : (j:ℚ) * ((10:ℚ) ^ (n:ℕ) + 1) = 20 * (10:ℚ) ^ (n:ℕ) := by
      rw [hq_inv] at hmain
      field_simp at hmain
      linarith [hmain]
    have hZ : j * (10 ^ n + 1) = 20 * 10 ^ n := by exact_mod_cast hQ
    have hev : (2:ℤ) ∣ 10 ^ n := dvd_pow (by norm_num) (by omega)
    have hodd2 : Odd (10 ^ n + 1 : ℤ) := by
      obtain ⟨t, ht⟩ := hev
      exact ⟨t, by omega⟩
    have hoddL : Odd (20 * 10 ^ n : ℤ) := by
      rw [← hZ]
      exact hjodd.mul hodd2
    obtain ⟨t, ht⟩ := hev
    have := Int.odd_iff.mp hoddL
    omega

/-- On every value the rating engine rounds, the fractional part is never
exactly one half. -/
theorem fract_ne_half (ra rb : ℤ) (sc : ℝ) (hs : sc = 0 ∨ sc = 1/2 ∨ sc = 1) :
    Int.fract ((K:ℝ) * (sc - expected_score ra rb)) ≠ 1/2 := by
  have h := fract_ne_half_aux (rb - ra) sc hs
  have hK : (K:ℝ) = 10 := by norm_num [K]
  rw [hK]
  exact h

theorem score_p1_cases (game : Game) :
    score_p1 game = 0 ∨ score_p1 game = 1/2 ∨ score_p1 game = 1 := by
  unfold score_p1
  split_ifs <;> norm_num

theorem score_p2_cases (game : Game) :
    score_p2 game = 0 ∨ score_p2 game = 1/2 ∨ score_p2 game = 1 := by
  unfold score_p2
  split_ifs <;> norm_num

theorem pyRound_zero : pyRound 0 = 0 := by
  rw [show (0:ℝ) = ((0:ℤ):ℝ) by norm_num, pyRound_intCast]

/-- C4: for every pair of integer ratings and every outcome (win, loss,
tie), each rating delta stored by `update_elo_ratings` equals
`K * (actual - expected)` rounded to the nearest integer using
round-half-away-from-zero, where the expected score of the player rated
`ra` against `rb` is `1 / (1 + 10 ^ ((rb - ra) / 400))`.  (The source
rounds with Python's `round`, i.e. ties-to-even; the two modes coincide
because the rounded value is never an exact half.) -/
theorem C4_delta_is_round_half_away (s : ServerState) (game : Game)
    (player1 player2 : User) (s' : ServerState) (g' : Game)
    (h1 : getUser s game.player1_id = some player1)
    (h2 : getUserOpt s game.player2_id = some player2)
    (h : update_elo_ratings s game = .ok (s', g')) :
    g'.player1_elo_change =
      roundHalfAwayFromZero ((K:ℝ) * (score_p1 game -
        expected_score player1.elo_rating player2.elo_rating)) ∧
    g'.player2_elo_change =
      roundHalfAwayFromZero ((K:ℝ) * (score_p2 game -
        expected_score player2.elo_rating player1.elo_rating)) := by
  simp only [update_elo_ratings, h1, h2, Except.ok.injEq, Prod.mk.injEq] at h
  obtain ⟨hs', hg'⟩ := h
  subst hg'
  exact ⟨pyRound_eq_roundHalfAwayFromZero _ (fract_ne_half _ _ _ (score_p1_cases game)),
         pyRound_eq_roundHalfAwayFromZero _ (fract_ne_half _ _ _ (score_p2_cases game))⟩

/-- Two players at the default rating, a completed tied game between them,
and the state `update_elo_ratings` produces on them. -/
def wUserA : User := ⟨1, "alice", 1200, 0, 0, 0, 0⟩

def wUserB : User := ⟨2, "bob", 1200, 0, 0, 0, 0⟩

def wGame : Game :=
  ⟨1, 1, some 2, some "rock", some "rock", none, "completed", false, 0, 0, 0, some 1⟩

def wState : ServerState := ⟨[wUserA, wUserB], [wGame], [], 2, []⟩

def wStateAfter : ServerState :=
  ⟨[⟨1, "alice", 1200, 1, 0, 0, 1⟩, ⟨2, "bob", 1200, 1, 0, 0, 1⟩], [wGame], [], 2, [1]⟩

/-- C4 witness: the rounding theorem applied to a concrete tied game
between two 1200-rated players. -/
theorem C4_delta_is_round_half_away_witness :
    getUser wState wGame.player1_id = some wUserA ∧
    getUserOpt wState wGame.player2_id = some wUserB ∧
    update_elo_ratings wState wGame = .ok (wStateAfter, wGame) ∧
    (wGame.player1_elo_change =
      roundHalfAwayFromZero ((K:ℝ) * (score_p1 wGame -
        expected_score wUserA.elo_rating wUserB.elo_rating)) ∧
     wGame.player2_elo_change =
      roundHalfAwayFromZero ((K:ℝ) * (score_p2 wGame -
        expected_score wUserB.elo_rating wUserA.elo_rating))) := by
  have h1 : getUser wState wGame.player1_id = some wUserA := by rfl
  have h2 : getUserOpt wState wGame.player2_id = some wUserB := by rfl
  have h3 : update_elo_ratings wState wGame = .ok (wStateAfter, wGame) := by
    simp [update_elo_ratings, getUser, getUserOpt, wState, wGame, wUserA, wUserB,
      score_p1, score_p2, expected_score_self, pyRound_tie_even, pyRound_zero,
      bump_counters_p1, bump_counters_p2, setUser, wStateAfter]
  exact ⟨h1, h2, h3,
    C4_delta_is_round_half_away wState wGame wUserA wUserB wStateAfter wGame h1 h2 h3⟩


def waitingGame : Game := ⟨1, 1, none, none, none, none, "waiting", true, 0, 0, 0, none⟩

def waitState : ServerState := ⟨[⟨1, "alice", 1200, 0, 0, 0, 0⟩], [waitingGame], [], 2, []⟩

def rematchGame : Game := ⟨2, 1, none, none, none, none, "active", true, 0, 0, 5, none⟩

/-- C8: refuted guard — `handle_play_again` creates and commits a new
Active game even when the old match has no second participant (`play_again`
from player 1 on a Waiting match), then raises looking up the missing
player's username.  The new game violates the B-set-iff-not-Waiting
invariant. -/
theorem C8_rematch_without_second_player :
    handle_play_again waitState 1 1 5 =
      .raised ⟨[⟨1, "alice", 1200, 0, 0, 0, 0⟩], [waitingGame, rematchGame], [], 3, []⟩
        "AttributeError" ∧
    waitingGame.player2_id = none ∧
    rematchGame.status = "active" ∧ rematchGame.player2_id = none := by
  decide

theorem find_first_sorted_min (p : Game → Bool) :
    ∀ (l : List Game), l.Pairwise (fun a b => a.id < b.id) →
      ∀ g, l.find? p = some g → ∀ g2 ∈ l, p g2 = true → g.id ≤ g2.id := by
  intro l
  induction l with
  | nil => intro _ g hg; simp at hg
  | cons h t ih =>
      intro hp g hg g2 hg2 hp2
      obtain ⟨hhd, htl⟩ := List.pairwise_cons.mp hp
      rcases List.mem_cons.mp hg2 with heq | hmem
      · by_cases ph : p h
        · rw [List.find?_cons_of_pos _ ph] at hg
          injection hg with hg
          rw [← hg, heq]
        · rw [heq] at hp2
          rw [Bool.not_eq_true] at ph
          rw [ph] at hp2
          exact absurd hp2 (by simp)
      · by_cases ph : p h
        · rw [List.find?_cons_of_pos _ ph] at hg
          injection hg with hg
          subst hg
          exact (hhd g2 hmem).le
        · rw [List.find?_cons_of_neg _ (by simpa using ph)] at hg
          exact ih htl g hg g2 hmem hp2

/-- C9: the matchmaking scan joins only eligible games (waiting,
quickplay, no second player, not created by the requester), picks the
first such game in primary-key (creation) order — i.e. the oldest, FIFO —
and when none exists creates a fresh waiting quickplay game with the
requester as player 1. -/
theorem C9_matchmaking_scan (s : ServerState) (uid : ℤ) (now : ℕ)
    (hsorted : s.games.Pairwise (fun a b => a.id < b.id)) :
    (∀ g, s.games.find? (eligible uid) = some g →
        eligible uid g = true ∧ g.player1_id ≠ uid ∧
        (∀ g2 ∈ s.games, eligible uid g2 = true → g.id ≤ g2.id) ∧
        (join_random_game s uid now).2.1 = g.id ∧
        (join_random_game s uid now).2.2 = "matched") ∧
    (s.games.find? (eligible uid) = none →
        (join_random_game s uid now).1.games = s.games ++
          [⟨s.next_game_id, uid, none, none, none, none, "waiting", true, 0, 0, now, none⟩] ∧
        (join_random_game s uid now).2.2 = "waiting") := by
  constructor
  · intro g hg
    have he := List.find?_some hg
    have hne : g.player1_id ≠ uid := by
      simp [eligible, Bool.and_eq_true] at he
      exact he.2
    refine ⟨he, hne, find_first_sorted_min (eligible uid) s.games hsorted g hg, ?_, ?_⟩
    · simp [join_random_game, hg]
    · simp [join_random_game, hg]
  · intro hn
    constructor
    · simp [join_random_game, hn]
    · simp [join_random_game, hn]

def fifoSelf : Game := ⟨1, 7, none, none, none, none, "waiting", true, 0, 0, 0, none⟩

def fifoOld : Game := ⟨2, 3, none, none, none, none, "waiting", true, 0, 0, 1, none⟩

def fifoNew : Game := ⟨3, 4, none, none, none, none, "waiting", true, 0, 0, 2, none⟩

def fifoState : ServerState := ⟨[], [fifoSelf, fifoOld, fifoNew], [], 4, []⟩

/-- C9 witness: three waiting games — the requester's own, then two
eligible ones — and the scan picks the older eligible game, skipping the
requester's. -/
theorem C9_matchmaking_scan_witness :
    fifoState.games.Pairwise (fun a b => a.id < b.id) ∧
    (eligible 7 fifoOld = true ∧ fifoOld.player1_id ≠ 7 ∧
     (∀ g2 ∈ fifoState.games, eligible 7 g2 = true → fifoOld.id ≤ g2.id) ∧
     (join_random_game fifoState 7 9).2.1 = fifoOld.id ∧
     (join_random_game fifoState 7 9).2.2 = "matched") :=
  ⟨by decide, (C9_matchmaking_scan fifoState 7 9 (by decide)).1 fifoOld (by decide)⟩


theorem getGame_cancel_game_timers (s : ServerState) (a b : ℤ) :
    getGame (cancel_game_timers s a) b = getGame s b := rfl

theorem getGame_setGame (games : List Game) (g g' : Game) (gid : ℤ)
    (h : games.find? (fun x => x.id == gid) = some g) (hid : g'.id = g.id) :
    (games.map (fun x => if x.id == g'.id then g' else x)).find? (fun x => x.id == gid) =
      some g' := by
  induction games with
  | nil => simp at h
  | cons a t ih =>
      have hgid : g.id = gid := by
        have := List.find?_some h
        simpa using this
      by_cases ha : a.id = gid
      · rw [List.find?_cons_of_pos _ (by simpa using ha)] at h
        injection h with h
        subst h
        have hag : a.id = g'.id := by omega
        simp only [List.map_cons, if_pos (by simpa using hag : (a.id == g'.id) = true)]
        rw [List.find?_cons_of_pos _ (by simp; omega)]
      · rw [List.find?_cons_of_neg _ (by simpa using ha)] at h
        have hag : ¬ a.id = g'.id := by omega
        simp only [List.map_cons, if_neg (by simpa using hag : ¬ (a.id == g'.id) = true)]
        rw [List.find?_cons_of_neg _ (by simpa using ha)]
        exact ih h

/-- C7 (amended): when a turn timer expires for either participant of an
active match while that participant has no truthy move, the expired
participant is recorded with the `timeout` sentinel, the opponent keeps
their already-recorded real move — or is handed the default real move
`rock` if they had none — and the opponent is declared the winner directly
by the timer handler (not via `determine_winner`); and whenever both
recorded moves are the sentinel, `determine_winner` resolves the match as
a tie.  The sentinel-loses rule lives only in the timer path:
`determine_winner` itself ties a sentinel-vs-real pair (see the
counterexample). -/
theorem C7_timer_forfeit_amended (s : ServerState) (g : Game) (gid p2id : ℤ)
    (u1 u2 : User) (now : ℕ)
    (hg : getGame s gid = some g) (hst : g.status = "active")
    (hp2 : g.player2_id = some p2id) (hne : g.player1_id ≠ p2id)
    (hu1 : getUser s g.player1_id = some u1) (hu2 : getUser s p2id = some u2) :
    (truthy g.player1_choice = false →
      ∃ s' g', handle_timer_expire s gid g.player1_id now = .ok s' ∧
        getGame s' gid = some g' ∧
        g'.player1_choice = some "timeout" ∧
        g'.player2_choice =
          (if truthy g.player2_choice then g.player2_choice else some "rock") ∧
        g'.winner_id = some p2id ∧
        g'.status = "completed") ∧
    (truthy g.player2_choice = false →
      ∃ s' g', handle_timer_expire s gid p2id now = .ok s' ∧
        getGame s' gid = some g' ∧
        g'.player2_choice = some "timeout" ∧
        g'.player1_choice =
          (if truthy g.player1_choice then g.player1_choice else some "rock") ∧
        g'.winner_id = some g.player1_id ∧
        g'.status = "completed") ∧
    (∀ g2 : Game, g2.player1_choice = some "timeout" →
      g2.player2_choice = some "timeout" → determine_winner g2 = none) := by
  have hne' : p2id ≠ g.player1_id := hne.symm
  refine ⟨?_, ?_, fun g2 ha hb => by simp [determine_winner, ha, hb]⟩
  · intro hp1
    cases hb : truthy g.player2_choice with
    | true =>
        simp only [handle_timer_expire, hg, hst, hp1, hp2, hb,
          update_elo_ratings, getUserOpt, ne_eq, not_true_eq_false, if_false,
          Bool.false_eq_true, and_false, false_and, if_true, true_and, and_true,
          ite_false, ite_true, eq_self_iff_true, Option.some.injEq, hne,
          Option.some_bind, hu1, hu2]
        exact ⟨_, _, rfl,
          (getGame_cancel_game_timers _ gid gid).trans
            (getGame_setGame s.games g _ gid hg rfl),
          rfl, rfl, rfl, rfl⟩
    | false =>
        simp only [handle_timer_expire, hg, hst, hp1, hp2, hb,
          update_elo_ratings, getUserOpt, ne_eq, not_true_eq_false, if_false,
          Bool.false_eq_true, and_false, false_and, if_true, true_and, and_true,
          ite_false, ite_true, eq_self_iff_true, Option.some.injEq, hne,
          Option.some_bind, hu1, hu2]
        exact ⟨_, _, rfl,
          (getGame_cancel_game_timers _ gid gid).trans
            (getGame_setGame s.games g _ gid hg rfl),
          rfl, rfl, rfl, rfl⟩
  · intro hq2
    cases hb : truthy g.player1_choice with
    | true =>
        simp only [handle_timer_expire, hg, hst, hq2, hp2, hb,
          update_elo_ratings, getUserOpt, ne_eq, not_true_eq_false, if_false,
          Bool.false_eq_true, and_false, false_and, if_true, true_and, and_true,
          ite_false, ite_true, eq_self_iff_true, Option.some.injEq, hne',
          Option.some_bind, hu1, hu2]
        exact ⟨_, _, rfl,
          (getGame_cancel_game_timers _ gid gid).trans
            (getGame_setGame s.games g _ gid hg rfl),
          rfl, rfl, rfl, rfl⟩
    | false =>
        simp only [handle_timer_expire, hg, hst, hq2, hp2, hb,
          update_elo_ratings, getUserOpt, ne_eq, not_true_eq_false, if_false,
          Bool.false_eq_true, and_false, false_and, if_true, true_and, and_true,
          ite_false, ite_true, eq_self_iff_true, Option.some.injEq, hne',
          Option.some_bind, hu1, hu2]
        exact ⟨_, _, rfl,
          (getGame_cancel_game_timers _ gid gid).trans
            (getGame_setGame s.games g _ gid hg rfl),
          rfl, rfl, rfl, rfl⟩


theorem truthy_some_of_ne (c : String) (h : c ≠ "") : truthy (some c) = true := by
  simp [truthy, h]

theorem pyRound_win_even' : pyRound ((K:ℝ) * (1 - 2⁻¹)) = 5 := by
  rw [show (K:ℝ) * (1 - 2⁻¹) = ((5:ℤ):ℝ) by norm_num [K], pyRound_intCast]

theorem pyRound_loss_even' : pyRound (-((K:ℝ) * 2⁻¹)) = -5 := by
  rw [show -((K:ℝ) * 2⁻¹) = ((-5:ℤ):ℝ) by norm_num [K], pyRound_intCast]

def baseU1 : User := ⟨1, "alice", 1200, 0, 0, 0, 0⟩

def baseU2 : User := ⟨2, "bob", 1200, 0, 0, 0, 0⟩

def baseGame : Game := ⟨1, 1, some 2, none, none, none, "active", false, 0, 0, 0, none⟩

def baseState : ServerState := ⟨[baseU1, baseU2], [baseGame], [], 2, []⟩

def c1sA : ServerState :=
  ⟨[baseU1, baseU2],
   [⟨1, 1, some 2, some "rock", none, none, "active", false, 0, 0, 0, none⟩], [], 2, []⟩

def c1sB : ServerState :=
  ⟨[⟨1, "alice", 1205, 1, 1, 0, 0⟩, ⟨2, "bob", 1195, 1, 0, 1, 0⟩],
   [⟨1, 1, some 2, some "rock", some "scissors", some 1, "completed", false, 5, -5, 0, some 2⟩],
   [], 2, [1]⟩

noncomputable def c1d1 : ℤ := pyRound ((K:ℝ) * (0 - expected_score 1205 1195))

noncomputable def c1d2 : ℤ := pyRound ((K:ℝ) * (1 - expected_score 1195 1205))

noncomputable def c1sC : ServerState :=
  ⟨[⟨1, "alice", 1205 + c1d1, 2, 1, 1, 0⟩, ⟨2, "bob", 1195 + c1d2, 2, 1, 1, 0⟩],
   [⟨1, 1, some 2, some "paper", some "scissors", some 2, "completed", false, c1d1, c1d2, 0, some 3⟩],
   [], 2, [1, 1]⟩

/-- C1: refuted on the code — once a match is completed, a later
`make_choice` from a participant still mutates it.  After a rock/scissors
resolution (winner player 1, ratings applied once, ghost `elo_log` = [1]),
a third submission overwrites player 1 move to paper, flips the winner to
player 2, and runs `update_elo_ratings` a second time (`elo_log` = [1,1]). -/
theorem C1_terminal_state_mutable_and_elo_reapplied :
    handle_choice baseState 1 1 "rock" 1 = .ok c1sA ∧
    handle_choice c1sA 2 1 "scissors" 2 = .ok c1sB ∧
    c1sB.elo_log = [1] ∧
    getGame c1sB 1 =
      some ⟨1, 1, some 2, some "rock", some "scissors", some 1, "completed", false, 5, -5, 0, some 2⟩ ∧
    handle_choice c1sB 1 1 "paper" 3 = .ok c1sC ∧
    c1sC.elo_log = [1, 1] ∧
    getGame c1sC 1 =
      some ⟨1, 1, some 2, some "paper", some "scissors", some 2, "completed", false, c1d1, c1d2, 0, some 3⟩ := by
  refine ⟨rfl, ?_, rfl, rfl, ?_, rfl, rfl⟩
  · have hdw : determine_winner
        ⟨1, 1, some 2, some "rock", some "scissors", none, "active", false, 0, 0, 0, none⟩ =
        some 1 := by rfl
    simp [handle_choice, getGame, c1sA, update_elo_ratings, getUser, getUserOpt, hdw,
      score_p1, score_p2, expected_score_self, pyRound_win_even', pyRound_loss_even', pyRound_zero,
      bump_counters_p1, bump_counters_p2, setUser, setGame,
      cancel_player_timer, cancel_game_timers, truthy, c1sB, baseU1, baseU2]
  · have hdw : determine_winner
        ⟨1, 1, some 2, some "paper", some "scissors", some 1, "completed", false, 5, -5, 0, some 2⟩ =
        some 2 := by rfl
    simp [handle_choice, getGame, c1sB, update_elo_ratings, getUser, getUserOpt, hdw,
      score_p1, score_p2,
      bump_counters_p1, bump_counters_p2, setUser, setGame,
      cancel_player_timer, cancel_game_timers, truthy, c1sC, c1d1, c1d2]

def c2sB : ServerState :=
  ⟨[baseU1, baseU2],
   [⟨1, 1, some 2, some "paper", none, none, "active", false, 0, 0, 0, none⟩], [], 2, []⟩

/-- C2: refuted on the code — `handle_choice` has no already-moved and no
status guard: player 1 submits rock and then resubmits paper on the same
active match, and the recorded move is overwritten instead of the second
call being a no-op. -/
theorem C2_move_overwritten :
    handle_choice baseState 1 1 "rock" 1 = .ok c1sA ∧
    getGame c1sA 1 =
      some ⟨1, 1, some 2, some "rock", none, none, "active", false, 0, 0, 0, none⟩ ∧
    handle_choice c1sA 1 1 "paper" 2 = .ok c2sB ∧
    getGame c2sB 1 =
      some ⟨1, 1, some 2, some "paper", none, none, "active", false, 0, 0, 0, none⟩ := by
  exact ⟨rfl, rfl, rfl, rfl⟩

def c7sA : ServerState :=
  ⟨[baseU1, baseU2],
   [⟨1, 1, some 2, some "timeout", none, none, "active", false, 0, 0, 0, none⟩], [], 2, []⟩

def c7sB : ServerState :=
  ⟨[⟨1, "alice", 1200, 1, 0, 0, 1⟩, ⟨2, "bob", 1200, 1, 0, 0, 1⟩],
   [⟨1, 1, some 2, some "timeout", some "rock", none, "completed", false, 0, 0, 0, some 2⟩],
   [], 2, [1]⟩

/-- C7 counterexample: a resolution in which exactly one recorded move is
the forfeit sentinel (client-submitted string equal to the sentinel) and
the other is the real move rock completes with the winner unset — a tie —
not a win for the participant holding the real move. -/
theorem C7_sentinel_vs_real_resolves_tie :
    handle_choice baseState 1 1 "timeout" 1 = .ok c7sA ∧
    handle_choice c7sA 2 1 "rock" 2 = .ok c7sB ∧
    getGame c7sB 1 =
      some ⟨1, 1, some 2, some "timeout", some "rock", none, "completed", false, 0, 0, 0, some 2⟩ ∧
    (⟨1, 1, some 2, some "timeout", some "rock", none, "completed", false, 0, 0, 0, some 2⟩ : Game).winner_id ≠
      some 2 := by
  refine ⟨rfl, ?_, rfl, by decide⟩
  have hdw : determine_winner
      ⟨1, 1, some 2, some "timeout", some "rock", none, "active", false, 0, 0, 0, none⟩ =
      none := by rfl
  simp [handle_choice, getGame, c7sA, update_elo_ratings, getUser, getUserOpt, hdw,
    score_p1, score_p2, expected_score_self, pyRound_zero,
    bump_counters_p1, bump_counters_p2, setUser, setGame,
    cancel_player_timer, cancel_game_timers, truthy, c7sB, baseU1, baseU2]

def c7wG : Game := ⟨1, 1, some 2, none, none, none, "active", false, 0, 0, 0, none⟩

def c7wS : ServerState := ⟨[baseU1, baseU2], [c7wG], [], 2, []⟩

/-- C7 witness: the timer-forfeit theorem applied to a concrete active
match in which neither participant has moved, so both expiry premises
hold: whichever participant's timer fires gets the sentinel, the other
gets the default rock and the win. -/
theorem C7_timer_forfeit_amended_witness :
    (getGame c7wS 1 = some c7wG ∧ c7wG.status = "active" ∧
     c7wG.player2_id = some 2 ∧ c7wG.player1_id ≠ 2 ∧
     getUser c7wS c7wG.player1_id = some baseU1 ∧ getUser c7wS 2 = some baseU2) ∧
    ((truthy c7wG.player1_choice = false →
      ∃ s' g', handle_timer_expire c7wS 1 c7wG.player1_id 0 = .ok s' ∧
        getGame s' 1 = some g' ∧
        g'.player1_choice = some "timeout" ∧
        g'.player2_choice =
          (if truthy c7wG.player2_choice then c7wG.player2_choice else some "rock") ∧
        g'.winner_id = some 2 ∧
        g'.status = "completed") ∧
     (truthy c7wG.player2_choice = false →
      ∃ s' g', handle_timer_expire c7wS 1 2 0 = .ok s' ∧
        getGame s' 1 = some g' ∧
        g'.player2_choice = some "timeout" ∧
        g'.player1_choice =
          (if truthy c7wG.player1_choice then c7wG.player1_choice else some "rock") ∧
        g'.winner_id = some c7wG.player1_id ∧
        g'.status = "completed") ∧
     (∀ g2 : Game, g2.player1_choice = some "timeout" →
      g2.player2_choice = some "timeout" → determine_winner g2 = none)) :=
  ⟨⟨rfl, rfl, rfl, by decide, rfl, rfl⟩,
   C7_timer_forfeit_amended c7wS c7wG 1 2 baseU1 baseU2 0 rfl rfl rfl
     (by decide) rfl rfl⟩

def mkActiveState (r1 r2 : ℤ) : ServerState :=
  ⟨[⟨1, "alice", r1, 0, 0, 0, 0⟩, ⟨2, "bob", r2, 0, 0, 0, 0⟩], [baseGame], [], 2, []⟩

def c10sA (r1 r2 : ℤ) (c1 : String) : ServerState :=
  ⟨[⟨1, "alice", r1, 0, 0, 0, 0⟩, ⟨2, "bob", r2, 0, 0, 0, 0⟩],
   [⟨1, 1, some 2, some c1, none, none, "active", false, 0, 0, 0, none⟩], [], 2, []⟩

noncomputable def tie_delta (ra rb : ℤ) : ℤ :=
  pyRound ((K:ℝ) * (1/2 - expected_score ra rb))

noncomputable def c10sB (r1 r2 : ℤ) (c1 c2 : String) : ServerState :=
  ⟨[⟨1, "alice", r1 + tie_delta r1 r2, 1, 0, 0, 1⟩, ⟨2, "bob", r2 + tie_delta r2 r1, 1, 0, 0, 1⟩],
   [⟨1, 1, some 2, some c1, some c2, none, "completed", false,
     tie_delta r1 r2, tie_delta r2 r1, 0, some 2⟩],
   [], 2, [1]⟩

/-- C10: `handle_choice` records arbitrary non-empty client strings
without validating them against the move enumeration; when the two
recorded strings are distinct and their pair is not in the winning table,
the match resolves with the winner unset, i.e. as a tie: tie counters are
bumped for both players and the tie rating deltas are stored. -/
theorem C10_unvalidated_moves_tie (r1 r2 : ℤ) (c1 c2 : String)
    (h1 : c1 ≠ "") (h2 : c2 ≠ "") (hne : c1 ≠ c2)
    (hlk : List.lookup (c1, c2) (winning_combinations 1 (some 2)) = none) :
    handle_choice (mkActiveState r1 r2) 1 1 c1 1 = .ok (c10sA r1 r2 c1) ∧
    handle_choice (c10sA r1 r2 c1) 2 1 c2 2 = .ok (c10sB r1 r2 c1 c2) ∧
    getGame (c10sB r1 r2 c1 c2) 1 =
      some ⟨1, 1, some 2, some c1, some c2, none, "completed", false,
        tie_delta r1 r2, tie_delta r2 r1, 0, some 2⟩ ∧
    getUser (c10sB r1 r2 c1 c2) 1 = some ⟨1, "alice", r1 + tie_delta r1 r2, 1, 0, 0, 1⟩ ∧
    getUser (c10sB r1 r2 c1 c2) 2 = some ⟨2, "bob", r2 + tie_delta r2 r1, 1, 0, 0, 1⟩ := by
  have ht1 := truthy_some_of_ne c1 h1
  have ht2 := truthy_some_of_ne c2 h2
  refine ⟨?_, ?_, rfl, rfl, rfl⟩
  · simp [handle_choice, getGame, mkActiveState, baseGame, truthy,
      cancel_player_timer, setGame, c10sA]
  · have hdw : determine_winner
        ⟨1, 1, some 2, some c1, some c2, none, "active", false, 0, 0, 0, none⟩ = none := by
      simp [determine_winner, hne, hlk]
    simp [handle_choice, getGame, c10sA, update_elo_ratings, getUser, getUserOpt, hdw,
      ht1, ht2, score_p1, score_p2, tie_delta,
      bump_counters_p1, bump_counters_p2, setUser, setGame,
      cancel_player_timer, cancel_game_timers, c10sB]

/-- C10 witness: the theorem instantiated with the unrecognised moves
`foo` and `bar` at equal ratings 1200. -/
theorem C10_unvalidated_moves_tie_witness :
    (("foo":String) ≠ "" ∧ ("bar":String) ≠ "" ∧ ("foo":String) ≠ "bar" ∧
     List.lookup ("foo", "bar") (winning_combinations 1 (some 2)) = none) ∧
    (handle_choice (mkActiveState 1200 1200) 1 1 "foo" 1 = .ok (c10sA 1200 1200 "foo") ∧
     handle_choice (c10sA 1200 1200 "foo") 2 1 "bar" 2 = .ok (c10sB 1200 1200 "foo" "bar") ∧
     getGame (c10sB 1200 1200 "foo" "bar") 1 =
       some ⟨1, 1, some 2, some "foo", some "bar", none, "completed", false,
         tie_delta 1200 1200, tie_delta 1200 1200, 0, some 2⟩ ∧
     getUser (c10sB 1200 1200 "foo" "bar") 1 =
       some ⟨1, "alice", 1200 + tie_delta 1200 1200, 1, 0, 0, 1⟩ ∧
     getUser (c10sB 1200 1200 "foo" "bar") 2 =
       some ⟨2, "bob", 1200 + tie_delta 1200 1200, 1, 0, 0, 1⟩) :=
  ⟨⟨by decide, by decide, by decide, by decide⟩,
   C10_unvalidated_moves_tie 1200 1200 "foo" "bar" (by decide) (by decide) (by decide) (by decide)⟩

/-- A match outcome from the modelled participant's own perspective. -/
inductive Outcome where
  | win
  | loss
  | tie
  deriving Repr, DecidableEq

/-- Actual score of an outcome (1 = win, 0.5 = tie, 0 = loss), as in
`update_elo_ratings`. -/
noncomputable def outcomeScore : Outcome → ℝ
  | .win => 1
  | .loss => 0
  | .tie => 1/2

/-- The participant's own rating delta from one resolved match, exactly the
expression `update_elo_ratings` computes for a player rated `myR` against
an opponent rated `oppR`. -/
noncomputable def ratingDelta (myR oppR : ℤ) (o : Outcome) : ℤ :=
  pyRound ((K:ℝ) * (outcomeScore o - expected_score myR oppR))

/-- Folding a sequence of resolved matches (opponent rating, outcome) over
a starting rating, mutating the rating only by Rating-Engine deltas. -/
noncomputable def applySeq (r : ℤ) : List (ℤ × Outcome) → ℤ
  | [] => r
  | (opp, o) :: rest => applySeq (r + ratingDelta r opp o) rest

/-- A streak of `n` losses, each against an opponent rated exactly the
participant's current rating. -/
def mkLosses : ℤ → ℕ → List (ℤ × Outcome)
  | _, 0 => []
  | r, n+1 => (r, .loss) :: mkLosses (r - 5) n

theorem ratingDelta_self_loss (r : ℤ) : ratingDelta r r .loss = -5 := by
  unfold ratingDelta
  rw [expected_score_self]
  show pyRound ((K:ℝ) * (0 - 1/2)) = -5
  exact pyRound_loss_even

theorem applySeq_mkLosses (n : ℕ) : ∀ r : ℤ, applySeq r (mkLosses r n) = r - 5 * n := by
  induction n with
  | zero => intro r; simp [mkLosses, applySeq]
  | succ k ih =>
      intro r
      rw [mkLosses]
      show applySeq (r + ratingDelta r r .loss) (mkLosses (r - 5) k) = r - 5 * (k + 1 : ℕ)
      rw [ratingDelta_self_loss, show r + -5 = r - 5 by ring, ih (r - 5)]
      push_cast
      ring

/-- A two-player active game carrying the given recorded choices. -/
def choiceGame (a b : String) : Game :=
  ⟨1, 1, some 2, some a, some b, none, "active", false, 0, 0, 0, none⟩

/-- C6: `determine_winner` returns exactly the fixed table on all nine
pairs of real moves: rock beats scissors, paper beats rock, scissors beats
paper; the reversed pairs go to player 2; equal moves tie. -/
theorem C6_winner_table :
    determine_winner (choiceGame "rock" "scissors") = some 1 ∧
    determine_winner (choiceGame "paper" "rock") = some 1 ∧
    determine_winner (choiceGame "scissors" "paper") = some 1 ∧
    determine_winner (choiceGame "scissors" "rock") = some 2 ∧
    determine_winner (choiceGame "rock" "paper") = some 2 ∧
    determine_winner (choiceGame "paper" "scissors") = some 2 ∧
    determine_winner (choiceGame "rock" "rock") = none ∧
    determine_winner (choiceGame "paper" "paper") = none ∧
    determine_winner (choiceGame "scissors" "scissors") = none := by
  decide

/-- A state containing one user and no games. -/
def emptyState : ServerState := ⟨[⟨1, "alice", 1200, 0, 0, 0, 0⟩], [], [], 1, []⟩

/-- C3: partially refuted on the code — on a match id that refers to no
existing game, `join_game` and `play_again` return silently with the state
unchanged, but `make_choice` dereferences the missing row
(`game.player1_id` on `None`) and raises an `AttributeError` instead of
returning silently (the state is still unchanged). -/
theorem C3_missing_match :
    handle_join_game emptyState 1 999 = .ok emptyState ∧
    handle_play_again emptyState 1 999 0 = .ok emptyState ∧
    handle_choice emptyState 1 999 "rock" 0 = .raised emptyState "AttributeError" := by
  refine ⟨rfl, rfl, ?_⟩
  simp [handle_choice, getGame, emptyState]

/-- C5 counterexample: starting from the default rating 1200 and mutating
the rating only by Rating-Engine deltas, a streak of 241 losses against
equally-rated opponents ends at rating -5 < 0: ratings are not kept
non-negative by construction. -/
theorem C5_rating_goes_negative : applySeq 1200 (mkLosses 1200 241) < 0 := by
  rw [applySeq_mkLosses]
  norm_num

theorem ratingDelta_abs_le (r1 r2 : ℤ) (o : Outcome) : |ratingDelta r1 r2 o| ≤ K := by
  have he0 := expected_score_pos r1 r2
  have he1 := expected_score_lt_one r1 r2
  have hs : 0 ≤ outcomeScore o ∧ outcomeScore o ≤ 1 := by
    cases o <;> norm_num [outcomeScore]
  have hK : (K:ℝ) = 10 := by norm_num [K]
  have hb := pyRound_bounds ((K:ℝ) * (outcomeScore o - expected_score r1 r2))
  have hfl : (-10:ℤ) ≤ ⌊(K:ℝ) * (outcomeScore o - expected_score r1 r2)⌋ := by
    apply Int.le_floor.mpr
    push_cast
    nlinarith [hs.1, hs.2, he0, he1]
  have hcl : ⌊(K:ℝ) * (outcomeScore o - expected_score r1 r2)⌋ < 10 := by
    apply Int.floor_lt.mpr
    push_cast
    nlinarith [hs.1, hs.2, he0, he1]
  have hK' : K = (10:ℤ) := rfl
  rw [abs_le]
  unfold ratingDelta
  omega

/-- C5 (amended): every single-match rating delta is bounded in magnitude
by the K-factor, so after `n` matches the rating is at least the starting
rating minus `K * n`; no non-negativity invariant holds (see the
counterexample). -/
theorem C5_delta_bounded_by_K :
    (∀ (r1 r2 : ℤ) (o : Outcome), |ratingDelta r1 r2 o| ≤ K) ∧
    (∀ (l : List (ℤ × Outcome)) (r : ℤ), r - K * l.length ≤ applySeq r l) := by
  refine ⟨ratingDelta_abs_le, ?_⟩
  intro l
  induction l with
  | nil => intro r; simp [applySeq]
  | cons hd tl ih =>
      intro r
      obtain ⟨opp, o⟩ := hd
      show r - K * (tl.length + 1 : ℕ) ≤ applySeq (r + ratingDelta r opp o) tl
      have h1 := (abs_le.mp (ratingDelta_abs_le r opp o)).1
      have h2 := ih (r + ratingDelta r opp o)
      have hK' : K = (10:ℤ) := rfl
      rw [hK'] at h2 ⊢
      push_cast
      omega

end RPS
